import Mathlib

/-!
# Verification of the kazan JSON parser front end (`src/json/parser.h`)

Shallow embedding of the JSON parsing engine of the kazan repository.
The declarations in `parser.h` (struct `source`, `location`, `parse_error`,
`parse_options`, and the `parse` entry point) are translated here.  Function
bodies that live only in `parser.cpp` (absent from the sources we were given:
`find_line_start_indexes`, `get_line_and_start_index`, `get_line_and_column`,
and `parse` itself) are modelled from the specification, as indicated by each
definition's doc comment.

Buffers are represented as `List Char` (the C++ code reads `char` bytes),
offsets and sizes as `Nat`.
-/

namespace Kazan

/-- The `"` character, written via its code point. -/
def quoteChar : Char := Char.ofNat 34

/-- The `'` character, written via its code point. -/
def squoteChar : Char := Char.ofNat 39

/-- The `\` character, written via its code point. -/
def backslashChar : Char := Char.ofNat 92

/-- Modelled from the spec: `ast::number_value::append_unsigned_integer_to_string`
lives in `json.h`, which is not among the given sources.  The spec only uses it
to render the line and the column as decimal numbers (`"line:column"`), so it is
modelled as appending the decimal representation of the integer to the buffer. -/
def append_unsigned_integer_to_string (v : Nat) (buffer : String) : String :=
  buffer ++ Nat.repr v

/-- `parse_options` from parser.h: four independent boolean grammar toggles. -/
structure parse_options where
  allow_infinity_and_nan : Bool
  allow_explicit_plus_sign_in_mantissa : Bool
  allow_single_quote_strings : Bool
  allow_number_to_start_with_dot : Bool
deriving DecidableEq, Repr

/-- `parse_options::default_options()`: all four flags false (strict JSON). -/
def parse_options.default_options : parse_options :=
  ⟨false, false, false, false⟩

/-- `parse_options::relaxed_options()`: all four flags true. -/
def parse_options.relaxed_options : parse_options :=
  ⟨true, true, true, true⟩

/-- Helper for `find_line_start_indexes`: scan the remaining buffer whose first
byte sits at absolute offset `i`, recording `j + 1` for every newline byte at
absolute offset `j`. -/
def find_line_start_indexes_from (i : Nat) : List Char → List Nat
  | [] => []
  | c :: rest =>
    if c = '\n' then (i + 1) :: find_line_start_indexes_from (i + 1) rest
    else find_line_start_indexes_from (i + 1) rest

/-- Modelled from the spec: `source::find_line_start_indexes` is declared in
parser.h but its body is in `parser.cpp`, absent from the given sources.  Per
the spec it is a single forward scan that, for every newline byte encountered,
records the offset of the following byte; the offset 0 start of line 0 is not
recorded. -/
def find_line_start_indexes (contents : List Char) : List Nat :=
  find_line_start_indexes_from 0 contents

/-- `source` from parser.h.  The C++ `contents` pointer together with
`contents_size` is modelled as an optional character list (a null pointer is
`none`). -/
structure source where
  file_name : String
  contents : Option (List Char)
  line_start_indexes : List Nat
deriving DecidableEq, Repr

/-- `source::source()`: the default constructor leaves everything empty. -/
def source.default : source :=
  ⟨"", none, []⟩

/-- `source::source(std::string file_name)`: a name-only source with no
contents buffer. -/
def source.named (file_name : String) : source :=
  ⟨file_name, none, []⟩

/-- The contents-taking constructors of `source` (string, `vector<char>`,
`vector<unsigned char>`, and shared-buffer variants all store the bytes and
compute `line_start_indexes` by `find_line_start_indexes`). -/
def source.of_string (file_name : String) (contents_in : List Char) : source :=
  ⟨file_name, some contents_in, find_line_start_indexes contents_in⟩

/-- `source::contents_size` (a null contents pointer comes with size 0). -/
def source.contents_size (s : source) : Nat :=
  (s.contents.getD []).length

/-- `source::operator bool()`: `contents != nullptr`. -/
def source.toBool (s : source) : Bool :=
  s.contents.isSome

/-- `source::line_and_index` from parser.h. -/
structure line_and_index where
  line : Nat
  index : Nat
deriving DecidableEq, Repr

/-- `source::line_and_column` from parser.h. -/
structure line_and_column where
  line : Nat
  column : Nat
deriving DecidableEq, Repr

/-- `line_and_column::append_to_string(buffer)` from parser.h: append the line,
a `:`, then the column. -/
def line_and_column.append_to_string (lc : line_and_column) (buffer : String) :
    String :=
  append_unsigned_integer_to_string lc.column
    (append_unsigned_integer_to_string lc.line buffer ++ ":")

/-- `std::string::clear()` on a buffer passed by value. -/
def string_clear (_ : String) : String := ""

/-- `line_and_column::to_string(buffer)` from parser.h: clear the buffer, then
append. -/
def line_and_column.to_string (lc : line_and_column) (buffer : String) :
    String :=
  lc.append_to_string (string_clear buffer)

/-- `source::default_tab_size` from parser.h. -/
def source.default_tab_size : Nat := 8

/-- Helper for `get_line_and_start_index`: walk the recorded line starts (the
entry at position `ln - 1` starts line `ln`), keeping the greatest recorded
start that is `≤ char_index`. -/
def line_search (char_index : Nat) : List Nat → Nat → line_and_index →
    line_and_index
  | [], _, best => best
  | x :: rest, ln, best =>
    if x ≤ char_index then line_search char_index rest (ln + 1) ⟨ln, x⟩
    else line_search char_index rest (ln + 1) best

/-- Modelled from the spec: `source::get_line_and_start_index` is declared in
parser.h but its body is in `parser.cpp`, absent from the given sources.  Per
the spec it searches `line_start_indexes` for the greatest recorded start
`≤ char_index`; if none (the offset is on line 0) the start is offset 0 and the
line is 0.  Lines are 0-based, and the entry at position `k` of
`line_start_indexes` starts line `k + 1` (line 0's start is not recorded). -/
def source.get_line_and_start_index (s : source) (char_index : Nat) :
    line_and_index :=
  line_search char_index s.line_start_indexes 1 ⟨0, 0⟩

/-- One step of the tab-expanding column scan: a non-tab byte advances the
column by 1; a tab byte at column `c` advances the column to
`((c / tab_size) + 1) * tab_size`. -/
def column_step (tab_size col : Nat) (c : Char) : Nat :=
  if c = '\t' then (col / tab_size + 1) * tab_size else col + 1

/-- Modelled from the spec: `source::get_line_and_column` is declared in
parser.h but its body is in `parser.cpp`, absent from the given sources.  Per
the spec it obtains the line and its start offset via
`get_line_and_start_index`, then scans forward from the line start to
`char_index` over raw bytes, incrementing the column by 1 per byte except tab
bytes, which advance the column to the next multiple of `tab_size` by the rule
`c ↦ ((c / tab_size) + 1) * tab_size`.  The column of the line's first byte is
1 (the spec's testable properties assume a 1-based column start). -/
def source.get_line_and_column (s : source) (char_index : Nat)
    (tab_size : Nat) : line_and_column :=
  let li := s.get_line_and_start_index char_index
  let seg :=
    ((s.contents.getD []).drop li.index).take (char_index - li.index)
  ⟨li.line, seg.foldl (column_step tab_size) 1⟩

/-- `location` from parser.h: a possibly-null pointer to a `source` plus a byte
offset. -/
structure location where
  source : Option source
  char_index : Nat
deriving DecidableEq, Repr

/-- `location::location()`: no source, offset 0. -/
def location.default : location :=
  ⟨none, 0⟩

/-- `location::get_line_and_start_index()` from parser.h: delegate to the
referenced source if present, else return the zero value. -/
def location.get_line_and_start_index (l : location) : line_and_index :=
  match l.source with
  | none => ⟨0, 0⟩
  | some s => s.get_line_and_start_index l.char_index

/-- `location::get_line_and_column(tab_size)` from parser.h: delegate to the
referenced source if present, else return the zero value. -/
def location.get_line_and_column (l : location) (tab_size : Nat) :
    line_and_column :=
  match l.source with
  | none => ⟨0, 0⟩
  | some s => s.get_line_and_column l.char_index tab_size

/-- `location::append_to_string(buffer, tab_size)` from parser.h: append
`<unknown>` when there is no source or the source's file name is empty,
otherwise the file name; then `:`; then the line and column. -/
def location.append_to_string (l : location) (buffer : String)
    (tab_size : Nat) : String :=
  let b :=
    match l.source with
    | none => buffer ++ "<unknown>"
    | some s =>
      if s.file_name = "" then buffer ++ "<unknown>" else buffer ++ s.file_name
  (l.get_line_and_column tab_size).append_to_string (b ++ ":")

/-- `location::to_string(buffer, tab_size)` from parser.h: clear the buffer,
then call `append_to_string` with the buffer only, so the `tab_size` argument
is not forwarded and `append_to_string` runs at `default_tab_size`. -/
def location.to_string (l : location) (buffer : String) (tab_size : Nat) :
    String :=
  l.append_to_string (string_clear buffer) source.default_tab_size

/-- `parse_error` from parser.h: the public `location` member and the
`std::runtime_error` message (`what()`). -/
structure parse_error where
  location : location
  what : String
deriving DecidableEq, Repr

/-- The `parse_error(json::location location, message)` constructor from
parser.h.  Its member-initializer list only passes
`location.to_string() + ": " + message` to `std::runtime_error`; the
`location` member is not named in the initializer list, so it is
default-constructed. -/
def mk_parse_error (l : location) (message : String) : parse_error :=
  ⟨location.default, l.to_string "" source.default_tab_size ++ ": " ++ message⟩

/-- An error raised by the modelled parser: the byte offset the `location`
would carry, plus the message. -/
structure perr where
  char_index : Nat
  message : String
deriving DecidableEq, Repr

/-- The value tree (`ast::value` of json.h, only its shape matters here):
object, array, string, number, boolean, null.  Strings are stored as code
point lists and numbers as their lexemes, since no claim inspects either
further. -/
inductive value where
  | null
  | boolean (b : Bool)
  | number_value (lexeme : List Char)
  | string_value (codepoints : List Nat)
  | array_value (elements : List value)
  | object_value (members : List (List Nat × value))

/-- Whitespace skipped by the tokenizer: space, tab, carriage return, line
feed. -/
def is_ws (c : Char) : Bool :=
  c = ' ' || c = '\t' || c = '\r' || c = '\n'

/-- Advance past whitespace, with fuel for termination. -/
def skip_ws (inp : List Char) : Nat → Nat → Nat
  | pos, 0 => pos
  | pos, fuel + 1 =>
    match inp.get? pos with
    | some c => if is_ws c then skip_ws inp (pos + 1) fuel else pos
    | none => pos

/-- Does the literal `lit` occur at offset `pos`? -/
def match_lit (inp : List Char) (pos : Nat) (lit : List Char) : Bool :=
  (inp.drop pos).take lit.length == lit

/-- Hex digit value, if any. -/
def hex_val (c : Char) : Option Nat :=
  let n := c.toNat
  if 48 ≤ n ∧ n ≤ 57 then some (n - 48)
  else if 97 ≤ n ∧ n ≤ 102 then some (n - 87)
  else if 65 ≤ n ∧ n ≤ 70 then some (n - 55)
  else none

/-- Four hex digits starting at `pos`, if present. -/
def scan_hex4 (inp : List Char) (pos : Nat) : Option Nat :=
  match inp.get? pos, inp.get? (pos + 1), inp.get? (pos + 2),
      inp.get? (pos + 3) with
  | some a, some b, some c, some d =>
    match hex_val a, hex_val b, hex_val c, hex_val d with
    | some x, some y, some z, some w =>
      some (((x * 16 + y) * 16 + z) * 16 + w)
    | _, _, _, _ => none
  | _, _, _, _ => none

/-- Modelled from the spec: the string scanner of the tokenizer
(parser.cpp, absent from the given sources).  `pos` is just past the opening
quote; the close quote must be the same character.  Escapes recognized:
quote, backslash, `/`, `b`, `f`, `n`, `r`, `t`, and `uXXXX` with a high
surrogate required to be immediately followed by a low-surrogate escape.  Any
other escape, a literal control character, or reaching end-of-buffer is an
error at the offending offset. -/
def scan_string_body (inp : List Char) (quote : Char) :
    Nat → List Nat → Nat → Except perr (List Nat × Nat)
  | pos, _, 0 => .error ⟨pos, "out of fuel"⟩
  | pos, acc, fuel + 1 =>
    match inp.get? pos with
    | none => .error ⟨pos, "unterminated string"⟩
    | some c =>
      if c = quote then .ok (acc.reverse, pos + 1)
      else if c = backslashChar then
        match inp.get? (pos + 1) with
        | none => .error ⟨pos + 1, "unterminated string"⟩
        | some e =>
          if e = quoteChar then
            scan_string_body inp quote (pos + 2) (34 :: acc) fuel
          else if e = backslashChar then
            scan_string_body inp quote (pos + 2) (92 :: acc) fuel
          else if e = '/' then
            scan_string_body inp quote (pos + 2) (47 :: acc) fuel
          else if e = 'b' then
            scan_string_body inp quote (pos + 2) (8 :: acc) fuel
          else if e = 'f' then
            scan_string_body inp quote (pos + 2) (12 :: acc) fuel
          else if e = 'n' then
            scan_string_body inp quote (pos + 2) (10 :: acc) fuel
          else if e = 'r' then
            scan_string_body inp quote (pos + 2) (13 :: acc) fuel
          else if e = 't' then
            scan_string_body inp quote (pos + 2) (9 :: acc) fuel
          else if e = 'u' then
            match scan_hex4 inp (pos + 2) with
            | none => .error ⟨pos + 2, "invalid unicode escape"⟩
            | some u =>
              if 0xD800 ≤ u ∧ u ≤ 0xDBFF then
                if inp.get? (pos + 6) = some backslashChar
                    ∧ inp.get? (pos + 7) = some 'u' then
                  match scan_hex4 inp (pos + 8) with
                  | some u2 =>
                    if 0xDC00 ≤ u2 ∧ u2 ≤ 0xDFFF then
                      scan_string_body inp quote (pos + 12)
                        ((0x10000 + (u - 0xD800) * 0x400 + (u2 - 0xDC00))
                          :: acc) fuel
                    else .error ⟨pos + 6, "expected low surrogate"⟩
                  | none => .error ⟨pos + 6, "expected low surrogate"⟩
                else .error ⟨pos + 6, "expected low surrogate"⟩
              else scan_string_body inp quote (pos + 6) (u :: acc) fuel
          else .error ⟨pos + 1, "invalid escape sequence"⟩
      else if c.toNat < 32 then
        .error ⟨pos, "control character in string"⟩
      else scan_string_body inp quote (pos + 1) (c.toNat :: acc) fuel

/-- Advance past decimal digits, with fuel for termination. -/
def scan_digits (inp : List Char) : Nat → Nat → Nat
  | pos, 0 => pos
  | pos, fuel + 1 =>
    match inp.get? pos with
    | some c => if c.isDigit then scan_digits inp (pos + 1) fuel else pos
    | none => pos

/-- Is there a decimal digit at `pos`? -/
def is_digit_at (inp : List Char) (pos : Nat) : Bool :=
  match inp.get? pos with
  | some c => c.isDigit
  | none => false

/-- Modelled from the spec: the fractional part of number scanning
(parser.cpp, absent from the given sources): an optional `.` followed by one
or more digits; the integer part may be empty only when the dot option allows
it and a fractional part follows. -/
def scan_frac (opts : parse_options) (inp : List Char) (p2 : Nat)
    (int_present : Bool) (fuel : Nat) : Except perr Nat :=
  match inp.get? p2 with
  | some c =>
    if c = '.' then
      if int_present || opts.allow_number_to_start_with_dot then
        if is_digit_at inp (p2 + 1) then .ok (scan_digits inp (p2 + 1) fuel)
        else .error ⟨p2 + 1, "expected digit after decimal point"⟩
      else .error ⟨p2, "invalid number"⟩
    else if int_present then .ok p2
    else .error ⟨p2, "invalid number"⟩
  | none => if int_present then .ok p2 else .error ⟨p2, "invalid number"⟩

/-- Modelled from the spec: the exponent part of number scanning
(parser.cpp, absent from the given sources): optional `e`/`E`, an optional
sign (`+` is always allowed in the exponent), then one or more digits. -/
def scan_exponent (inp : List Char) (p3 : Nat) (fuel : Nat) :
    Except perr Nat :=
  match inp.get? p3 with
  | some c =>
    if c = 'e' || c = 'E' then
      let p4 :=
        match inp.get? (p3 + 1) with
        | some s => if s = '+' || s = '-' then p3 + 2 else p3 + 1
        | none => p3 + 1
      if is_digit_at inp p4 then .ok (scan_digits inp p4 fuel)
      else .error ⟨p4, "expected digit in exponent"⟩
    else .ok p3
  | none => .ok p3

/-- Modelled from the spec: the number scanner of the tokenizer (parser.cpp,
absent from the given sources).  When `allow_infinity_and_nan`, the literals
`Infinity`, `-Infinity`, `NaN` are checked before generic scanning.  Then:
optional leading `-`, or leading `+` only under
`allow_explicit_plus_sign_in_mantissa`; integer part a single `0` or a
non-zero digit followed by digits, possibly empty before a `.` under
`allow_number_to_start_with_dot`; fractional part and exponent per `scan_frac`
and `scan_exponent`.  A malformed sequence errors at the first offending
byte. -/
def scan_number (opts : parse_options) (inp : List Char) (pos : Nat) :
    Except perr (List Char × Nat) :=
  let fuel := inp.length + 1
  if opts.allow_infinity_and_nan && match_lit inp pos "Infinity".data then
    .ok ("Infinity".data, pos + 8)
  else if opts.allow_infinity_and_nan && match_lit inp pos "-Infinity".data then
    .ok ("-Infinity".data, pos + 9)
  else if opts.allow_infinity_and_nan && match_lit inp pos "NaN".data then
    .ok ("NaN".data, pos + 3)
  else
    let p1 :=
      match inp.get? pos with
      | some c =>
        if c = '-' then pos + 1
        else if c = '+' && opts.allow_explicit_plus_sign_in_mantissa then
          pos + 1
        else pos
      | none => pos
    match inp.get? p1 with
    | none => .error ⟨p1, "invalid number"⟩
    | some c =>
      let int_result : Except perr (Nat × Bool) :=
        if c = '0' then .ok (p1 + 1, true)
        else if c.isDigit then .ok (scan_digits inp (p1 + 1) fuel, true)
        else if c = '.' && opts.allow_number_to_start_with_dot then
          .ok (p1, false)
        else .error ⟨p1, "invalid number"⟩
      match int_result with
      | .error e => .error e
      | .ok (p2, int_present) =>
        match scan_frac opts inp p2 int_present fuel with
        | .error e => .error e
        | .ok p3 =>
          match scan_exponent inp p3 fuel with
          | .error e => .error e
          | .ok p5 => .ok ((inp.drop pos).take (p5 - pos), p5)

mutual

/-- Modelled from the spec: the recursive-descent `value` nonterminal
(parser.cpp, absent from the given sources).  Skip whitespace, then dispatch
on the next byte: `{` object, `[` array, quote (also single quote when
allowed) string, `t`/`f`/`n` keyword, number starts (`-`, digit, and under
their options `+`, `.`, `I`, `N`); end-of-buffer is a premature-end error and
any other byte an unexpected-token error at the current offset. -/
def parse_value (opts : parse_options) (inp : List Char) (pos : Nat) :
    Nat → Except perr (value × Nat)
  | 0 => .error ⟨pos, "out of fuel"⟩
  | fuel + 1 =>
    let p := skip_ws inp pos (inp.length + 1)
    match inp.get? p with
    | none => .error ⟨p, "premature end of input"⟩
    | some c =>
      if c = '{' then parse_object_body opts inp (p + 1) fuel
      else if c = '[' then parse_array_body opts inp (p + 1) fuel
      else if c = quoteChar
          || (c = squoteChar && opts.allow_single_quote_strings) then
        match scan_string_body inp c (p + 1) [] (inp.length + 1) with
        | .error e => .error e
        | .ok (cps, p2) => .ok (.string_value cps, p2)
      else if c = 't' then
        if match_lit inp p "true".data then .ok (.boolean true, p + 4)
        else .error ⟨p, "invalid token"⟩
      else if c = 'f' then
        if match_lit inp p "false".data then .ok (.boolean false, p + 5)
        else .error ⟨p, "invalid token"⟩
      else if c = 'n' then
        if match_lit inp p "null".data then .ok (.null, p + 4)
        else .error ⟨p, "invalid token"⟩
      else if c = '-' || c.isDigit
          || (c = '+' && opts.allow_explicit_plus_sign_in_mantissa)
          || (c = '.' && opts.allow_number_to_start_with_dot)
          || ((c = 'I' || c = 'N') && opts.allow_infinity_and_nan) then
        match scan_number opts inp p with
        | .error e => .error e
        | .ok (lex, p2) => .ok (.number_value lex, p2)
      else .error ⟨p, "unexpected token"⟩
termination_by structural fuel => fuel

/-- Modelled from the spec: the body of an object after its `{`: either an
immediate `}` (empty object) or a member list. -/
def parse_object_body (opts : parse_options) (inp : List Char) (pos : Nat) :
    Nat → Except perr (value × Nat)
  | 0 => .error ⟨pos, "out of fuel"⟩
  | fuel + 1 =>
    let p := skip_ws inp pos (inp.length + 1)
    match inp.get? p with
    | none => .error ⟨p, "premature end of input"⟩
    | some c =>
      if c = '}' then .ok (.object_value [], p + 1)
      else parse_members opts inp p [] fuel
termination_by structural fuel => fuel

/-- Modelled from the spec: one-or-more object members
`string ":" value ("," member)*`, ending at `}`; after a comma a member (and
so a string key) is required, so a `}` there is an error at its own offset. -/
def parse_members (opts : parse_options) (inp : List Char) (pos : Nat)
    (acc : List (List Nat × value)) : Nat → Except perr (value × Nat)
  | 0 => .error ⟨pos, "out of fuel"⟩
  | fuel + 1 =>
    let p := skip_ws inp pos (inp.length + 1)
    match inp.get? p with
    | none => .error ⟨p, "premature end of input"⟩
    | some c =>
      if c = quoteChar
          || (c = squoteChar && opts.allow_single_quote_strings) then
        match scan_string_body inp c (p + 1) [] (inp.length + 1) with
        | .error e => .error e
        | .ok (key, p2) =>
          let p3 := skip_ws inp p2 (inp.length + 1)
          match inp.get? p3 with
          | none => .error ⟨p3, "premature end of input"⟩
          | some c2 =>
            if c2 = ':' then
              match parse_value opts inp (p3 + 1) fuel with
              | .error e => .error e
              | .ok (v, p4) =>
                let p5 := skip_ws inp p4 (inp.length + 1)
                match inp.get? p5 with
                | none => .error ⟨p5, "premature end of input"⟩
                | some c3 =>
                  if c3 = ',' then
                    parse_members opts inp (p5 + 1) (acc ++ [(key, v)]) fuel
                  else if c3 = '}' then
                    .ok (.object_value (acc ++ [(key, v)]), p5 + 1)
                  else .error ⟨p5, "expected comma or closing brace"⟩
            else .error ⟨p3, "expected colon after object key"⟩
      else .error ⟨p, "expected string key in object"⟩
termination_by structural fuel => fuel

/-- Modelled from the spec: the body of an array after its `[`: either an
immediate `]` (empty array) or an element list. -/
def parse_array_body (opts : parse_options) (inp : List Char) (pos : Nat) :
    Nat → Except perr (value × Nat)
  | 0 => .error ⟨pos, "out of fuel"⟩
  | fuel + 1 =>
    let p := skip_ws inp pos (inp.length + 1)
    match inp.get? p with
    | none => .error ⟨p, "premature end of input"⟩
    | some c =>
      if c = ']' then .ok (.array_value [], p + 1)
      else parse_elements opts inp p [] fuel
termination_by structural fuel => fuel

/-- Modelled from the spec: one-or-more array elements
`value ("," value)*`, ending at `]`. -/
def parse_elements (opts : parse_options) (inp : List Char) (pos : Nat)
    (acc : List value) : Nat → Except perr (value × Nat)
  | 0 => .error ⟨pos, "out of fuel"⟩
  | fuel + 1 =>
    match parse_value opts inp pos fuel with
    | .error e => .error e
    | .ok (v, p2) =>
      let p3 := skip_ws inp p2 (inp.length + 1)
      match inp.get? p3 with
      | none => .error ⟨p3, "premature end of input"⟩
      | some c =>
        if c = ',' then parse_elements opts inp (p3 + 1) (acc ++ [v]) fuel
        else if c = ']' then .ok (.array_value (acc ++ [v]), p3 + 1)
        else .error ⟨p3, "expected comma or closing bracket"⟩
termination_by structural fuel => fuel

end

/-- Modelled from the spec: `parse(source, options)` is declared in parser.h
but defined in parser.cpp, absent from the given sources.  Per the spec it
parses one value from offset 0 of the source's buffer and then requires
end-of-buffer after trailing whitespace; the first violation aborts the parse
with an error carrying the offending offset. -/
def parse (s : source) (opts : parse_options) : Except perr value :=
  let inp := s.contents.getD []
  match parse_value opts inp 0 (2 * inp.length + 2) with
  | .error e => .error e
  | .ok (v, p) =>
    let p2 := skip_ws inp p (inp.length + 1)
    match inp.get? p2 with
    | none => .ok v
    | some _ => .error ⟨p2, "trailing data after value"⟩

/-- Did `parse` produce a value? -/
def parse_ok (r : Except perr value) : Bool :=
  match r with
  | .ok _ => true
  | .error _ => false

/-- The byte offset of a parse failure, if the parse failed. -/
def parse_err_index (r : Except perr value) : Option Nat :=
  match r with
  | .ok _ => none
  | .error e => some e.char_index

/-- The input `+1e5`. -/
def input_plus : List Char := "+1e5".data

/-- The input `'single'`. -/
def input_single_quoted : List Char :=
  [squoteChar, 's', 'i', 'n', 'g', 'l', 'e', squoteChar]

/-- The input `.5`. -/
def input_dot_five : List Char := ".5".data

/-- The input `NaN`. -/
def input_nan : List Char := "NaN".data

/-- The 8-byte input holding `a` as a quoted key, a colon, `1`, a trailing
comma, and the closing brace, inside braces. -/
def input_trailing_comma : List Char :=
  ['{', quoteChar, 'a', quoteChar, ':', '1', ',', '}']

/-- The byte-by-byte column scan stated by the spec, written as plain
recursion: from the starting column, each non-tab byte increments the column
by 1, and a tab byte at column `c` moves the column to
`((c / tab_size) + 1) * tab_size`. -/
def column_by_scan (tab_size : Nat) (col : Nat) : List Char → Nat
  | [] => col
  | c :: rest =>
    column_by_scan tab_size
      (if c = '\t' then (col / tab_size + 1) * tab_size else col + 1) rest

/-- The spec's stable rendered location format: the file name, or `<unknown>`
when there is no source or the name is empty, then `:`, then line and column
as decimal numbers separated by `:`, at the default tab size. -/
def spec_rendered_location (l : location) : String :=
  (match l.source with
    | none => "<unknown>"
    | some s => if s.file_name = "" then "<unknown>" else s.file_name)
    ++ ":" ++ Nat.repr (l.get_line_and_column source.default_tab_size).line
    ++ ":" ++ Nat.repr (l.get_line_and_column source.default_tab_size).column

/-! ## Supporting lemmas -/

lemma str_empty_append (a : String) : "" ++ a = a := by
  cases a
  show String.append (String.mk []) _ = _
  simp [String.append]

lemma foldl_column_step_eq (t : Nat) (l : List Char) :
    ∀ col : Nat, l.foldl (column_step t) col = column_by_scan t col l := by
  induction l with
  | nil => intro col; rfl
  | cons c rest ih =>
    intro col
    simp only [List.foldl_cons, column_by_scan, column_step]
    exact ih _

lemma flsi_mem (cs : List Char) : ∀ i e : Nat,
    e ∈ find_line_start_indexes_from i cs ↔
      ∃ k, cs.get? k = some '\n' ∧ e = i + k + 1 := by
  induction cs with
  | nil =>
    intro i e
    simp [find_line_start_indexes_from]
  | cons c rest ih =>
    intro i e
    simp only [find_line_start_indexes_from]
    by_cases hc : c = '\n'
    · rw [if_pos hc]
      constructor
      · intro h
        rcases List.mem_cons.mp h with h1 | h2
        · exact ⟨0, by simp [hc], by omega⟩
        · rcases (ih (i + 1) e).mp h2 with ⟨k, hk, he⟩
          exact ⟨k + 1, by simpa using hk, by omega⟩
      · rintro ⟨k, hk, he⟩
        cases k with
        | zero =>
          apply List.mem_cons.mpr
          left
          omega
        | succ k2 =>
          apply List.mem_cons.mpr
          right
          exact (ih (i + 1) e).mpr ⟨k2, by simpa using hk, by omega⟩
    · rw [if_neg hc]
      constructor
      · intro h
        rcases (ih (i + 1) e).mp h with ⟨k, hk, he⟩
        exact ⟨k + 1, by simpa using hk, by omega⟩
      · rintro ⟨k, hk, he⟩
        cases k with
        | zero => exact absurd (by simpa using hk) hc
        | succ k2 =>
          exact (ih (i + 1) e).mpr ⟨k2, by simpa using hk, by omega⟩

lemma flsi_bounds (cs : List Char) : ∀ i : Nat,
    ∀ e ∈ find_line_start_indexes_from i cs, i < e ∧ e ≤ i + cs.length := by
  induction cs with
  | nil =>
    intro i e he
    simp [find_line_start_indexes_from] at he
  | cons c rest ih =>
    intro i e he
    simp only [find_line_start_indexes_from] at he
    by_cases hc : c = '\n'
    · rw [if_pos hc] at he
      rcases List.mem_cons.mp he with rfl | h2
      · simp only [List.length_cons]
        omega
      · have h3 := ih (i + 1) e h2
        simp only [List.length_cons]
        omega
    · rw [if_neg hc] at he
      have h3 := ih (i + 1) e he
      simp only [List.length_cons]
      omega

lemma flsi_sorted (cs : List Char) : ∀ i : Nat,
    List.Sorted (· < ·) (find_line_start_indexes_from i cs) := by
  induction cs with
  | nil =>
    intro i
    simp [find_line_start_indexes_from]
  | cons c rest ih =>
    intro i
    simp only [find_line_start_indexes_from]
    by_cases hc : c = '\n'
    · rw [if_pos hc]
      refine List.sorted_cons.mpr ⟨?_, ih (i + 1)⟩
      intro b hb
      exact (flsi_bounds rest (i + 1) b hb).1
    · rw [if_neg hc]
      exact ih (i + 1)

/-! ## The claims -/

/-- C1.  Under the default (strict) options, parsing each of the whole
documents `+1e5`, `'single'`, `.5`, `NaN` fails, and under the relaxed
options parsing each of the same four documents succeeds. -/
theorem c1_strict_rejects_relaxed_accepts :
    parse_ok (parse (source.of_string "test.json" input_plus)
        parse_options.default_options) = false
    ∧ parse_ok (parse (source.of_string "test.json" input_single_quoted)
        parse_options.default_options) = false
    ∧ parse_ok (parse (source.of_string "test.json" input_dot_five)
        parse_options.default_options) = false
    ∧ parse_ok (parse (source.of_string "test.json" input_nan)
        parse_options.default_options) = false
    ∧ parse_ok (parse (source.of_string "test.json" input_plus)
        parse_options.relaxed_options) = true
    ∧ parse_ok (parse (source.of_string "test.json" input_single_quoted)
        parse_options.relaxed_options) = true
    ∧ parse_ok (parse (source.of_string "test.json" input_dot_five)
        parse_options.relaxed_options) = true
    ∧ parse_ok (parse (source.of_string "test.json" input_nan)
        parse_options.relaxed_options) = true := by
  refine ⟨rfl, rfl, rfl, rfl, rfl, rfl, rfl, rfl⟩

/-- C2, counterexample.  On the two-byte buffer of a tab followed by `x`, with
tab size 8, the column that `get_line_and_column` reports for the byte at
offset 1 is not 9: a tab at column 1 advances the column to
`((1 / 8) + 1) * 8 = 8`. -/
theorem c2_counterexample :
    ¬ ((source.of_string "f" ['\t', 'x']).get_line_and_column 1 8).column
        = 9 := by
  decide

/-- C2, as amended.  For every source, valid offset and positive tab size,
`get_line_and_column` returns the column computed by the byte-by-byte scan
from the line's first byte (column 1) in which each non-tab byte increments
the column by 1 and a tab byte at column `c` advances it to
`((c / tab_size) + 1) * tab_size`; in particular, for tab size 8 on the input
of a tab followed by `x`, the column of the byte at offset 1 is 8. -/
theorem c2_column_by_scan :
    (∀ (s : source) (i t : Nat), 0 < t → i ≤ s.contents_size →
      (s.get_line_and_column i t).column
        = column_by_scan t 1
            (((s.contents.getD []).drop (s.get_line_and_start_index i).index).take
              (i - (s.get_line_and_start_index i).index)))
    ∧ ((source.of_string "f" ['\t', 'x']).get_line_and_column 1 8).column
        = 8 := by
  constructor
  · intro s i t _ _
    exact foldl_column_step_eq t _ 1
  · decide

/-- C2, witness for the amended theorem's hypotheses, at the source holding a
tab then `x`, offset 1 and tab size 8. -/
theorem c2_column_by_scan_witness :
    ((source.of_string "f" ['\t', 'x']).get_line_and_column 1 8).column
      = column_by_scan 8 1
          ((((source.of_string "f" ['\t', 'x']).contents.getD []).drop
              ((source.of_string "f" ['\t', 'x']).get_line_and_start_index 1).index).take
            (1 - ((source.of_string "f" ['\t', 'x']).get_line_and_start_index 1).index)) :=
  c2_column_by_scan.1 (source.of_string "f" ['\t', 'x']) 1 8 (by decide)
    (by decide)

/-- C3.  The string a `parse_error` carries is built at construction and
equals the spec's stable rendering of the passed location
(file name or `<unknown>`, `:`, line, `:`, column) followed by a colon, a
space, and the message. -/
theorem c3_parse_error_message (l : location) (m : String) :
    (mk_parse_error l m).what = spec_rendered_location l ++ ": " ++ m := by
  rcases l with ⟨src, ci⟩
  cases src with
  | none =>
    simp only [mk_parse_error, location.to_string, location.append_to_string,
      string_clear, line_and_column.append_to_string,
      append_unsigned_integer_to_string, spec_rendered_location,
      str_empty_append]
  | some s =>
    by_cases h : s.file_name = ""
    · simp only [mk_parse_error, location.to_string, location.append_to_string,
        string_clear, line_and_column.append_to_string,
        append_unsigned_integer_to_string, spec_rendered_location, h,
        if_pos, str_empty_append]
    · simp only [mk_parse_error, location.to_string, location.append_to_string,
        string_clear, line_and_column.append_to_string,
        append_unsigned_integer_to_string, spec_rendered_location, h,
        if_neg, if_false, str_empty_append, ite_false]

/-- C4.  The `location` member of a constructed `parse_error` is the
default-constructed location (the constructor's initializer list never names
the member, so the passed location is dropped): constructing from the
location with no source and offset 5 yields a `parse_error` whose member is
the default location, which differs from the passed one. -/
theorem c4_location_member_defaulted :
    (mk_parse_error (location.mk none 5) "x").location = location.default
    ∧ location.mk none 5 ≠ location.default := by
  decide

/-- C5, counterexample.  On the one-byte buffer holding a single newline, the
recorded line start 1 equals the buffer size, so not every entry is strictly
less than the size. -/
theorem c5_counterexample :
    1 ∈ find_line_start_indexes ['\n']
    ∧ ¬ (1 < (['\n'] : List Char).length) := by
  decide

/-- C5, as amended.  For every buffer, `find_line_start_indexes` contains
exactly the offsets immediately following each newline byte, is strictly
increasing, excludes offset 0, and every entry is at most the buffer size
(an entry equals the size exactly when the buffer ends with a newline). -/
theorem c5_line_start_indexes (cs : List Char) :
    (∀ e, e ∈ find_line_start_indexes cs ↔
        ∃ k, cs.get? k = some '\n' ∧ e = k + 1)
    ∧ List.Sorted (· < ·) (find_line_start_indexes cs)
    ∧ 0 ∉ find_line_start_indexes cs
    ∧ ∀ e ∈ find_line_start_indexes cs, e ≤ cs.length := by
  refine ⟨?_, flsi_sorted cs 0, ?_, ?_⟩
  · intro e
    rw [find_line_start_indexes, flsi_mem cs 0 e]
    constructor
    · rintro ⟨k, hk, he⟩
      exact ⟨k, hk, by omega⟩
    · rintro ⟨k, hk, he⟩
      exact ⟨k, hk, by omega⟩
  · intro h0
    have h1 := (flsi_bounds cs 0 0 h0).1
    omega
  · intro e he
    have h1 := (flsi_bounds cs 0 e he).2
    omega

/-- C5, witness: the amended theorem applied to the two-byte buffer `a`
followed by a newline, at entry 2. -/
theorem c5_line_start_indexes_witness :
    (2 ∈ find_line_start_indexes ['a', '\n'] ↔
        ∃ k, (['a', '\n'] : List Char).get? k = some '\n' ∧ 2 = k + 1)
    ∧ 2 ≤ (['a', '\n'] : List Char).length :=
  ⟨(c5_line_start_indexes ['a', '\n']).1 2,
    (c5_line_start_indexes ['a', '\n']).2.2.2 2 (by decide)⟩

/-- C6.  `append_to_string` appends to the given buffer the literal
`<unknown>` when there is no source or the source's file name is empty and
the file name otherwise, then `:`, then the line and the column separated by
`:`. -/
theorem c6_append_to_string (l : location) (buffer : String) (t : Nat) :
    l.append_to_string buffer t =
      buffer
        ++ (match l.source with
          | none => "<unknown>"
          | some s => if s.file_name = "" then "<unknown>" else s.file_name)
        ++ ":" ++ Nat.repr (l.get_line_and_column t).line ++ ":"
        ++ Nat.repr (l.get_line_and_column t).column := by
  rcases l with ⟨src, ci⟩
  cases src with
  | none => rfl
  | some s =>
    by_cases h : s.file_name = ""
    · simp only [location.append_to_string, line_and_column.append_to_string,
        append_unsigned_integer_to_string, h, if_pos]
    · simp only [location.append_to_string, line_and_column.append_to_string,
        append_unsigned_integer_to_string, h, if_neg, ite_false]

/-- C7.  A location whose source reference is absent returns the zero
`line_and_index` from `get_line_and_start_index` and the zero
`line_and_column` from `get_line_and_column` at every tab size, and the
default-constructed location has no source and offset 0. -/
theorem c7_no_source_zero (l : location) (t : Nat) (h : l.source = none) :
    l.get_line_and_start_index = ⟨0, 0⟩
    ∧ l.get_line_and_column t = ⟨0, 0⟩
    ∧ location.default.source = none
    ∧ location.default.char_index = 0 := by
  rcases l with ⟨src, ci⟩
  cases h
  exact ⟨rfl, rfl, rfl, rfl⟩

/-- C7, witness: the theorem applied to the default-constructed location at
tab size 3. -/
theorem c7_no_source_zero_witness :
    location.default.get_line_and_start_index = ⟨0, 0⟩
    ∧ location.default.get_line_and_column 3 = ⟨0, 0⟩
    ∧ location.default.source = none
    ∧ location.default.char_index = 0 :=
  c7_no_source_zero location.default 3 rfl

/-- C8.  A source converts to `true` in boolean context exactly when it holds
a contents buffer, and a source constructed with a file name only converts to
`false`. -/
theorem c8_operator_bool :
    (∀ s : source, s.toBool = true ↔ ∃ cs, s.contents = some cs)
    ∧ ∀ n : String, (source.named n).toBool = false := by
  constructor
  · intro s
    rcases s with ⟨nm, cont, idx⟩
    cases cont <;> simp [source.toBool]
  · intro n
    rfl

/-- C9.  Parsing the trailing-comma document (key `a`, value 1, comma, then
the closing brace) under default options fails, and the error's byte offset
is 7, the offset of the closing brace. -/
theorem c9_trailing_comma_location :
    parse_err_index
        (parse (source.of_string "test.json" input_trailing_comma)
          parse_options.default_options)
      = some 7 := by
  rfl

/-- C10.  `to_string` clears the buffer it is given and does not forward its
tab-size argument, so for every location, prior buffer content, and tab size
it returns exactly `append_to_string` on the empty buffer at the default tab
size. -/
theorem c10_to_string_ignores_arguments (l : location) (buffer : String)
    (t : Nat) :
    l.to_string buffer t = l.append_to_string "" source.default_tab_size :=
  rfl

end Kazan
